import Mathlib

/-!
Verification development for the BeethovenLab generation engine
(`generation_engine.py`). The Python classes are shallowly embedded:

* MIDI pitches and interval deltas are `Int` (Python ints).
* Durations, probabilities, tension levels and motif importances are `ℚ`.
  The source stores them as Python floats, but every operation the claims
  touch (doubling, halving, fixed decimal weights, truncation of
  `32 * 0.3`-style products) is exact at the inputs the claims test, so the
  rational model agrees with the float computation there.
* `music21` objects are reduced to the data the engine reads from them:
  a key is its tonic MIDI number plus the scale pitch classes, a note or
  chord is a pitch list with a duration, a score is a list of parts.
* Randomness (`random.choice`, `random.random`, `np.random.choice`) is
  modelled by oracle arguments: either plain `Nat` selectors for the pure
  single-call functions, or a stream `RState` threaded through the
  stateful composition pipeline.  Theorems quantify over the oracles, so
  they hold for every outcome of the random source.
* A Python exception (IndexError from `deque`/tuple indexing) is modelled
  by `Option`: `none` is a raise, `some` a normal return.
-/

namespace BeethovenLab

/-- Random source: a stream of naturals with a cursor, standing in for the
single shared pseudo-random source of the engine. -/
structure RState where
  stream : Nat → Nat
  idx : Nat

/-- Draw one value from the random source. -/
def draw (s : RState) : Nat × RState :=
  (s.stream s.idx, ⟨s.stream, s.idx + 1⟩)

/-- Python `MusicalContext` (generation_engine.py:16-45).  `current_key` is kept as
its tonic MIDI number plus the scale pitch classes (`key.pitches` is only
ever read as `[p.midi % 12 for p in ...]` and `key.tonic.midi`); time
signature and tempo are carried by the source class but never read by the
embedded operations. -/
structure MusicalContext where
  tonicMidi : Int
  scalePCs : List Int
  tension_level : ℚ
  dynamic_level : String
  section_type : String
  recent_pitches : List Int
  harmonic_rhythm : ℚ

/-- Python `MusicalContext.__init__` defaults: C major, tension 0.5, empty pitch
history. -/
def initial_context : MusicalContext :=
  { tonicMidi := 60
    scalePCs := [0, 2, 4, 5, 7, 9, 11]
    tension_level := 1/2
    dynamic_level := "mf"
    section_type := "exposition"
    recent_pitches := []
    harmonic_rhythm := 1 }

/-- Python `MusicalContext.update_pitch_history`: append to the `deque(maxlen=8)`. -/
def update_pitch_history (ctx : MusicalContext) (p : Int) : MusicalContext :=
  let l := ctx.recent_pitches ++ [p]
  { ctx with recent_pitches := if 8 < l.length then l.drop (l.length - 8) else l }

/-- Python `MusicalContext.get_pitch_tendency` (generation_engine.py:34-45). -/
def get_pitch_tendency (recent : List Int) : String :=
  if recent.length < 3 then "neutral"
  else
    let r := recent.drop (recent.length - 3)
    let a := r.headD 0
    let b := r.getLastD 0
    if a + 2 < b then "ascending"
    else if b < a - 2 then "descending"
    else "stable"

/-- Python `MotivicCell` (generation_engine.py:47-53). -/
structure MotivicCell where
  intervals : List Int
  rhythm : List ℚ
  contour : String
  importance : ℚ

/-! ## MotivicDeveloper (generation_engine.py:295-441)

Each development technique is pure in the source (builds a new cell); the
random draws that feed a technique are passed as plain arguments here.  -/

/-- Python `MotivicDeveloper.transpose`: the drawn transposition interval is never
applied to the interval list in the source (intervals are relative), so the
cell's intervals and rhythm are copied unchanged. -/
def transpose (m : MotivicCell) : MotivicCell :=
  { intervals := m.intervals
    rhythm := m.rhythm
    contour := m.contour
    importance := m.importance * (9/10) }

/-- Contour flip table used by `invert`. -/
def invert_contour (c : String) : String :=
  if c = "ascending" then "descending"
  else if c = "descending" then "ascending"
  else if c = "arch" then "inverted_arch"
  else if c = "inverted_arch" then "arch"
  else if c = "stable" then "stable"
  else if c = "mixed" then "mixed"
  else "mixed"

/-- Python `MotivicDeveloper.invert`: negate every interval. -/
def invert (m : MotivicCell) : MotivicCell :=
  { intervals := m.intervals.map (fun i => -i)
    rhythm := m.rhythm
    contour := invert_contour m.contour
    importance := m.importance * (85/100) }

/-- Python `MotivicDeveloper.retrograde`: reverse intervals and rhythm. -/
def retrograde (m : MotivicCell) : MotivicCell :=
  { intervals := m.intervals.reverse
    rhythm := m.rhythm.reverse
    contour := "mixed"
    importance := m.importance * (8/10) }

/-- Python `MotivicDeveloper.augment`: double every rhythm value. -/
def augment (m : MotivicCell) : MotivicCell :=
  { intervals := m.intervals
    rhythm := m.rhythm.map (fun r => r * 2)
    contour := m.contour
    importance := m.importance * (9/10) }

/-- Python `MotivicDeveloper.diminish`: halve every rhythm value. -/
def diminish (m : MotivicCell) : MotivicCell :=
  { intervals := m.intervals
    rhythm := m.rhythm.map (fun r => r * (1/2))
    contour := m.contour
    importance := m.importance * (9/10) }

/-- Python `MotivicDeveloper.fragment`: first or second half (the coin flip is the
`firstHalf` argument); no-op on cells with at most two intervals. -/
def fragment (firstHalf : Bool) (m : MotivicCell) : MotivicCell :=
  if m.intervals.length ≤ 2 then m
  else
    let n := m.intervals.length / 2
    if firstHalf then
      { intervals := m.intervals.take n
        rhythm := m.rhythm.take n
        contour := "fragment"
        importance := m.importance * (7/10) }
    else
      { intervals := m.intervals.drop n
        rhythm := m.rhythm.drop n
        contour := "fragment"
        importance := m.importance * (7/10) }

/-- Python `MotivicDeveloper.sequence`: concatenate `reps` copies of the interval
and rhythm lists (`reps` is drawn from {2,3} in the source; the drawn
per-repetition transposition is computed but never applied). -/
def motif_sequence (reps : Nat) (m : MotivicCell) : MotivicCell :=
  { intervals := (List.replicate reps m.intervals).flatten
    rhythm := (List.replicate reps m.rhythm).flatten
    contour := "sequence"
    importance := m.importance }

/-- Random-technique dispatch: `random.choice(self.development_techniques)`,
the list order of generation_engine.py:301-309. -/
def apply_technique (k : Nat) (firstHalf : Bool) (reps : Nat) (m : MotivicCell) : MotivicCell :=
  match k % 7 with
  | 0 => transpose m
  | 1 => invert m
  | 2 => retrograde m
  | 3 => augment m
  | 4 => diminish m
  | 5 => fragment firstHalf m
  | _ => motif_sequence reps m

/-- Python `MotivicDeveloper.develop_motif`: a named technique is matched against
the technique functions by name; a missing or unmatched name falls through
to a random technique. -/
def develop_motif (technique : Option String) (k : Nat) (firstHalf : Bool) (reps : Nat)
    (m : MotivicCell) : MotivicCell :=
  match technique with
  | some t =>
    if t = "transpose" then transpose m
    else if t = "invert" then invert m
    else if t = "retrograde" then retrograde m
    else if t = "augment" then augment m
    else if t = "diminish" then diminish m
    else if t = "fragment" then fragment firstHalf m
    else if t = "sequence" then motif_sequence reps m
    else apply_technique k firstHalf reps m
  | none => apply_technique k firstHalf reps m

/-! ## MarkovChainModel (generation_engine.py:55-154)

`transitions` / `rhythm_transitions` are `defaultdict(lambda: defaultdict(int))`;
they are embedded as association lists from an order-N state (a symbol list)
to a candidate list of (next symbol, count) pairs.  Entries only ever appear
through training, which starts a count at 1 and afterwards increments it. -/

/-- Association-list lookup (`state in table` / `table[state]`). -/
def lookupTable {α β : Type} [DecidableEq α] : List (α × β) → α → Option β
  | [], _ => none
  | (s, c) :: rest, st => if s = st then some c else lookupTable rest st

/-- Python `table[state][next] += 1` on the inner counter dict. -/
def bump {α : Type} [DecidableEq α] : List (α × Nat) → α → List (α × Nat)
  | [], p => [(p, 1)]
  | (q, c) :: rest, p => if q = p then (q, c + 1) :: rest else (q, c) :: bump rest p

/-- Python `table[state][next] += 1` on the outer state dict. -/
def addTransition {α : Type} [DecidableEq α] :
    List (List α × List (α × Nat)) → List α → α → List (List α × List (α × Nat))
  | [], st, p => [(st, [(p, 1)])]
  | (s, cands) :: rest, st, p =>
    if s = st then (s, bump cands p) :: rest else (s, cands) :: addTransition rest st p

/-- Python `MarkovChainModel.train_pitch` / `train_rhythm`: for every window of
`order` consecutive symbols, count the following symbol under that window. -/
def train_model {α : Type} [DecidableEq α] (order : Nat) :
    List (List α × List (α × Nat)) → List α → List (List α × List (α × Nat))
  | tbl, [] => tbl
  | tbl, p :: rest =>
    match (p :: rest).get? order with
    | some nxt => train_model order (addTransition tbl ((p :: rest).take order) nxt) rest
    | none => tbl

/-- Pitch transition table of a model. -/
abbrev TransTable := List (List Int × List (Int × Nat))

/-- Rhythm transition table of a model. -/
abbrev RhythmTable := List (List ℚ × List (ℚ × Nat))

/-- A pitch table reachable from the fresh model by `train_pitch` calls. -/
inductive Trained (order : Nat) : TransTable → Prop
  | empty : Trained order []
  | step (tbl : TransTable) (seq : List Int) :
      Trained order tbl → Trained order (train_model order tbl seq)

/-- Python `MarkovChainModel._adjust_pitch_probabilities` body for one candidate:
count, in-scale boost ×1.5, then the tension branch (leap boost ×1.2 above
tension 0.7, otherwise stepwise boost ×1.3). -/
def adjust_weight (ctx : MusicalContext) (lastRecent : Int) (pitch : Int) (count : Nat) : ℚ :=
  let w1 : ℚ := (count : ℚ)
  let w2 := if pitch % 12 ∈ ctx.scalePCs then w1 * (3/2) else w1
  if 7/10 < ctx.tension_level then
    if 4 < |pitch - lastRecent| then w2 * (6/5) else w2
  else
    if |pitch - lastRecent| ≤ 2 then w2 * (13/10) else w2

/-- Python `MarkovChainModel._adjust_pitch_probabilities`: both tension branches
read `list(context.recent_pitches)[-1]`, so a non-empty candidate dict with
an empty recent-pitch history raises IndexError (`none`). -/
def adjust_pitch_probabilities (cands : List (Int × Nat)) (ctx : MusicalContext) :
    Option (List (Int × ℚ)) :=
  match cands, ctx.recent_pitches.getLast? with
  | [], _ => some []
  | _ :: _, none => none
  | c :: cs, some lastR =>
    some ((c :: cs).map (fun pc => (pc.1, adjust_weight ctx lastR pc.1 pc.2)))

/-- Python `MarkovChainModel._generate_contextual_pitch`: scale tones within ±7
semitones of the last state pitch and inside [48,84], filtered by the
recent-pitch tendency; `random.choice` is the selector `k`.  `state[-1]` on
an empty tuple raises (`none`). -/
def generate_contextual_pitch (state : List Int) (ctx : MusicalContext) (k : Nat) :
    Option Int :=
  match state.getLast? with
  | none => none
  | some last =>
    let cands := ((List.range 15).map (fun j => last + (j : Int) - 7)).filter
      (fun np => decide (48 ≤ np) && decide (np ≤ 84) && ctx.scalePCs.contains (np % 12))
    if cands.isEmpty then some last
    else
      let tendency := get_pitch_tendency ctx.recent_pitches
      let cands2 :=
        if tendency = "ascending" then cands.filter (fun p => decide (last ≤ p))
        else if tendency = "descending" then cands.filter (fun p => decide (p ≤ last))
        else cands
      if cands2.isEmpty then some last else cands2.get? (k % cands2.length)

/-- Python `MarkovChainModel.generate_next_pitch`: known states sample from the
adjusted candidate weights (`np.random.choice` is the selector `k`), falling
back to the last state symbol when all weights are zero; unknown states use
the context-driven generator. -/
def generate_next_pitch (tbl : TransTable) (state : List Int) (ctx : MusicalContext)
    (k kc : Nat) : Option Int :=
  match lookupTable tbl state with
  | none => generate_contextual_pitch state ctx kc
  | some cands =>
    match adjust_pitch_probabilities cands ctx with
    | none => none
    | some adjusted =>
      let pitches := adjusted.map Prod.fst
      let weights := adjusted.map Prod.snd
      if weights.sum = 0 then
        match state.getLast? with
        | none => none
        | some p => some p
      else pitches.get? (k % pitches.length)

/-! ## HarmonicGenerator (generation_engine.py:156-293) -/

/-- Python `HarmonicGenerator._create_progression_rules`, in dict insertion order. -/
def progression_rules : List (String × List (String × ℚ)) :=
  [ ("I", [("V", 3/10), ("IV", 25/100), ("vi", 2/10), ("ii", 15/100), ("iii", 1/10)])
  , ("ii", [("V", 6/10), ("vii°", 2/10), ("IV", 2/10)])
  , ("iii", [("vi", 4/10), ("IV", 3/10), ("I", 3/10)])
  , ("IV", [("V", 4/10), ("I", 3/10), ("ii", 2/10), ("vii°", 1/10)])
  , ("V", [("I", 6/10), ("vi", 25/100), ("IV", 15/100)])
  , ("vi", [("ii", 35/100), ("IV", 35/100), ("V", 3/10)])
  , ("vii°", [("I", 7/10), ("V", 3/10)]) ]

/-- Python `HarmonicGenerator._is_cadence_point`: every 16th position (remainder
15) or within the last 3 positions of the requested length. -/
def is_cadence_point (position total_length : Nat) : Bool :=
  position % 16 = 15 || total_length ≤ position + 3

/-- Python `HarmonicGenerator._select_cadence`: section-dependent cadence choice;
the `random.choice` selector is `k`. -/
def select_cadence (ctx : MusicalContext) (k : Nat) : List String :=
  if ctx.section_type = "exposition" then
    [["ii", "V", "I"], ["IV", "V", "I"]].getD (k % 2) ["ii", "V", "I"]
  else if ctx.section_type = "development" then
    [["ii", "V", "vi"], ["IV", "V", "vi"], ["V", "vi"]].getD (k % 3) ["ii", "V", "vi"]
  else ["ii", "V", "I"]

/-- Tension reweighting of one rule entry
(`HarmonicGenerator._select_next_chord`, lines 241-248). -/
def adjust_chord_prob (ctx : MusicalContext) (chord : String) (prob : ℚ) : ℚ :=
  if 7/10 < ctx.tension_level ∧ (chord = "V" ∨ chord = "vii°") then prob * (13/10)
  else if ctx.tension_level < 3/10 ∧ (chord = "I" ∨ chord = "vi") then prob * (12/10)
  else prob

/-- Python `HarmonicGenerator._select_next_chord`: unknown symbols return `I`;
known symbols sample the reweighted rule row (`np.random.choice` is the
selector `k`). -/
def select_next_chord (current : String) (ctx : MusicalContext) (k : Nat) : String :=
  match lookupTable progression_rules current with
  | none => "I"
  | some cands =>
    let adjusted := cands.map (fun cp => (cp.1, adjust_chord_prob ctx cp.1 cp.2))
    let chords := adjusted.map Prod.fst
    chords.getD (k % chords.length) "I"

/-- One iteration of the `for i in range(1, length)` loop of
`HarmonicGenerator.generate_progression`.  The source's `i += len(cadence)-1`
rebinds the loop variable of a `for` statement, which Python discards at the
next iteration, so the loop index always advances by exactly 1; the step
therefore takes `i` from the unmodified range. -/
def prog_step (length : Nat) (ctx : MusicalContext) (acc : List String × RState) (i : Nat) :
    List String × RState :=
  let current := acc.1.getLastD "I"
  if is_cadence_point i length then
    let (k, r1) := draw acc.2
    let cad := select_cadence ctx k
    if cad.length + i ≤ length then (acc.1 ++ cad.drop 1, r1)
    else
      let (k2, r2) := draw r1
      (acc.1 ++ [select_next_chord current ctx k2], r2)
  else
    let (k2, r1) := draw acc.2
    (acc.1 ++ [select_next_chord current ctx k2], r1)

/-- Python `HarmonicGenerator.generate_progression`: start on `I`, then run the
loop body for `i = 1 .. length-1`. -/
def generate_progression (length : Nat) (ctx : MusicalContext) (r : RState) :
    List String × RState :=
  (List.range' 1 (length - 1)).foldl (prog_step length ctx) (["I"], r)

/-- Python `root_map` of `HarmonicGenerator.realize_harmony`. -/
def root_map : List (String × Int) :=
  [("I", 0), ("ii", 2), ("iii", 4), ("IV", 5), ("V", 7), ("vi", 9), ("vii°", 11)]

/-- Python `root_map.get(chord_symbol, 0)`. -/
def rootOffset (symbol : String) : Int :=
  (lookupTable root_map symbol).getD 0

/-- The triad built at lines 264-275: root from the root map (tonic for
unknown symbols), diminished for `vii°`, minor for ii/iii/vi (case
insensitive), major otherwise. -/
def triad_base (symbol : String) (tonic : Int) : List Int :=
  let root := tonic + rootOffset symbol
  if symbol = "vii°" then [root, root + 3, root + 6]
  else if ["ii", "iii", "vi"].contains symbol.toLower then [root, root + 3, root + 7]
  else [root, root + 4, root + 7]

/-- Loop body iteration of `while pitches[0] < 36: pitches = [p + 12 ...]`,
with an explicit iteration budget.  Each pass raises the head by 12, so the
loop runs at most `(36 - head)` times; `while_low` supplies that budget,
making the fuel encoding exactly the source loop. -/
def while_low_go : Nat → List Int → List Int
  | 0, ps => ps
  | fuel + 1, ps =>
    match ps with
    | [] => []
    | p :: rest =>
      if p < 36 then while_low_go fuel ((p + 12) :: rest.map (fun q => q + 12)) else p :: rest

/-- Python `while pitches[0] < 36: pitches = [p + 12 for p in pitches]`. -/
def while_low (ps : List Int) : List Int :=
  while_low_go (36 - ps.headD 36).toNat ps

/-- Loop body iteration of `while pitches[0] > 48: pitches = [p - 12 ...]`,
with an explicit iteration budget (see `while_low_go`). -/
def while_high_go : Nat → List Int → List Int
  | 0, ps => ps
  | fuel + 1, ps =>
    match ps with
    | [] => []
    | p :: rest =>
      if 48 < p then while_high_go fuel ((p - 12) :: rest.map (fun q => q - 12)) else p :: rest

/-- Python `while pitches[0] > 48: pitches = [p - 12 for p in pitches]`. -/
def while_high (ps : List Int) : List Int :=
  while_high_go (ps.headD 48 - 48).toNat ps

/-- Python `pitches = pitches[inversion:] + [pitches[i] + 12 for i in range(inversion)]`
guarded by `inversion > 0`. -/
def apply_inversion (inv : Nat) (ps : List Int) : List Int :=
  if inv = 0 then ps else ps.drop inv ++ (ps.take inv).map (fun p => p + 12)

/-- Python `HarmonicGenerator.realize_harmony`: triad, inversion choice weighted
toward root position, octave normalization of the root into [36,48], then
the inversion; duration is the context's harmonic rhythm. -/
def realize_harmony (symbol : String) (ctx : MusicalContext) (k : Nat) : List Int × ℚ :=
  let base := triad_base symbol ctx.tonicMidi
  let inversion := [0, 0, 0, 1, 1, 2].getD (k % 6) 0
  let adjusted := while_high (while_low base)
  (apply_inversion inversion adjusted, ctx.harmonic_rhythm)

/-! ## StructureGenerator (generation_engine.py:443-542) -/

/-- One subsection of a sonata template section. -/
structure SubsectionT where
  name : String
  key : String
  character : String

/-- One top-level section of the sonata template. -/
structure SectionT where
  name : String
  subsections : List SubsectionT
  proportion : ℚ

/-- Python `StructureGenerator._create_sonata_template().sections`. -/
def sonata_sections : List SectionT :=
  [ { name := "exposition"
      subsections :=
        [ ⟨"first_theme", "I", "energetic"⟩
        , ⟨"transition", "I->V", "modulatory"⟩
        , ⟨"second_theme", "V", "lyrical"⟩
        , ⟨"closing", "V", "conclusive"⟩ ]
      proportion := 3/10 }
  , { name := "development"
      subsections :=
        [ ⟨"fragmentation", "various", "unstable"⟩
        , ⟨"sequence", "various", "progressive"⟩
        , ⟨"climax", "various", "intense"⟩
        , ⟨"retransition", "V/I", "preparatory"⟩ ]
      proportion := 4/10 }
  , { name := "recapitulation"
      subsections :=
        [ ⟨"first_theme", "I", "energetic"⟩
        , ⟨"transition_alt", "I", "stable"⟩
        , ⟨"second_theme", "I", "lyrical"⟩
        , ⟨"coda", "I", "final"⟩ ]
      proportion := 3/10 } ]

/-- The keys of `StructureGenerator.form_templates` (the rondo and
theme-and-variations templates exist as data in the source but
`plan_structure` never reads their contents). -/
def form_template_keys : List String := ["sonata", "rondo", "theme_variations"]

/-- An entry of the structure plan. -/
structure SectionPlan where
  name : String
  measures : Nat
  key : String
  character : String
  parent_section : String
deriving DecidableEq

/-- Python `int(total_measures * section['proportion'])`: Python `int()` truncates;
both factors are non-negative here, so this is the floor. -/
def sectionBudget (total : Nat) (proportion : ℚ) : Nat :=
  (⌊(total : ℚ) * proportion⌋).toNat

/-- Python `StructureGenerator.plan_structure`: unknown forms are replaced by
`sonata`; only the `form == 'sonata'` branch fills the plan, so the rondo
and theme-variations forms yield an empty plan. -/
def plan_structure (total_measures : Nat) (form : String) : List SectionPlan :=
  let f := if form ∈ form_template_keys then form else "sonata"
  if f = "sonata" then
    (sonata_sections.map (fun sec =>
      let section_measures := sectionBudget total_measures sec.proportion
      let subsection_measures := section_measures / sec.subsections.length
      sec.subsections.map (fun s =>
        { name := sec.name ++ "_" ++ s.name
          measures := subsection_measures
          key := s.key
          character := s.character
          parent_section := sec.name }))).flatten
  else []

/-! ## BeethovenComposerAdvanced._realize_motif (generation_engine.py:788-815) -/

/-- The per-note range correction: a single octave shift of ±12. -/
def clamp_range (p : Int) : Int :=
  if p < 48 then p + 12 else if 84 < p then p - 12 else p

/-- The realization walk: add each interval to the running pitch, correct
the range, emit the note, and push the pitch into the history. -/
def realize_motif_go (cur : Int) (ctx : MusicalContext) :
    List (Int × ℚ) → List (Int × ℚ) × MusicalContext
  | [] => ([], ctx)
  | (i, rh) :: rest =>
    let p := clamp_range (cur + i)
    let res := realize_motif_go p (update_pitch_history ctx p) rest
    ((p, rh) :: res.1, res.2)

/-- The realization start pitch: the last recent pitch, or 60 (C4) when the
history is empty. -/
def motif_start (ctx : MusicalContext) : Int :=
  match ctx.recent_pitches.getLast? with
  | some p => p
  | none => 60

/-- Python `BeethovenComposerAdvanced._realize_motif`, continued: walk
`zip(intervals, rhythm)` from the start pitch. -/
def realize_motif (m : MotivicCell) (ctx : MusicalContext) :
    List (Int × ℚ) × MusicalContext :=
  realize_motif_go (motif_start ctx) ctx (m.intervals.zip m.rhythm)

/-! ## BeethovenComposerAdvanced (generation_engine.py:543-1004)

The composer's default training data (`_train_default_patterns`, taken when
no `beethoven_patterns.json` is present) and the full
`compose`/`_generate_section` pipeline.  Stateful Python methods become
functions threading `MusicalContext` and the random source `RState`; note
and chord objects are reduced to `(pitch list, duration)` pairs.

Caveat on the source text: in the shipped module the statement
`class BeethovenComposerAdvanced:` is dead code — it sits, indented, inside
`StructureGenerator.plan_structure` after its `return` — its training
statements sit at class-body indentation outside `_train_default_patterns`,
and the module as a whole fails to parse (IndentationError at
generation_engine.py:570-572), so this pipeline is not importable as
written.  The definitions below embed the evident method text of lines
543-1004, which is also the pipeline the spec describes. -/

/-- The five default pitch training patterns. -/
def default_pitch_patterns : List (List Int) :=
  [ [60, 62, 64, 65, 67, 69, 71, 72]
  , [72, 71, 69, 67, 65, 64, 62, 60]
  , [60, 64, 67, 72, 67, 64, 60]
  , [60, 60, 60, 56, 57, 57, 57, 53]
  , [60, 62, 64, 60, 64, 65, 67] ]

/-- The five default rhythm training patterns. -/
def default_rhythm_patterns : List (List ℚ) :=
  [ [1, 1, 1, 1]
  , [2, 1, 1]
  , [1, 1/2, 1/2, 1, 1]
  , [1/2, 1/2, 1/2, 1/2, 2]
  , [3, 1] ]

/-- The pitch table after the default training statements (order 2).  In
the source these `train_pitch` loops sit at class-body indentation below
the mangled `_train_default_patterns`; they are the training the method
text evidently intends (and the spec describes). -/
def default_table : TransTable :=
  default_pitch_patterns.foldl (fun t s => train_model 2 t s) []

/-- The rhythm table after the default training statements (order 2); see
`default_table` for the source caveat. -/
def default_rhythm_table : RhythmTable :=
  default_rhythm_patterns.foldl (fun t s => train_model 2 t s) []

/-- The four seed motifs of `MotivicDeveloper.create_primary_motif`. -/
def motif_patterns : List MotivicCell :=
  [ ⟨[0, 0, 0, -4], [1/2, 1/2, 1/2, 3/2], "descending", 1⟩
  , ⟨[2, 2, 1, 2, 2, 1, 2], List.replicate 7 (1/2), "arch", 9/10⟩
  , ⟨[0, 0, 0], [1/2, 1/2, 1/2], "stable", 8/10⟩
  , ⟨[-1, -2, -2, 7], [1/4, 1/4, 1/4, 3/4], "mixed", 95/100⟩ ]

/-- Python `MotivicDeveloper.create_primary_motif`: one random pattern. -/
def create_primary_motif (r : RState) : MotivicCell × RState :=
  let (k, r1) := draw r
  (motif_patterns.getD (k % 4) ⟨[0, 0, 0, -4], [1/2, 1/2, 1/2, 3/2], "descending", 1⟩, r1)

/-- Python `MotivicDeveloper.develop_motif` with no technique argument, drawing the
technique and its internal choices from the random source (transposition
and sequence draw amounts that are never applied to the output cell). -/
def develop_motif_r (m : MotivicCell) (r : RState) : MotivicCell × RState :=
  let (k, r1) := draw r
  match k % 7 with
  | 0 =>
    let (_, r2) := draw r1
    (transpose m, r2)
  | 1 => (invert m, r1)
  | 2 => (retrograde m, r1)
  | 3 => (augment m, r1)
  | 4 => (diminish m, r1)
  | 5 =>
    if m.intervals.length ≤ 2 then (m, r1)
    else
      let (b, r2) := draw r1
      (fragment (b % 2 = 0) m, r2)
  | _ =>
    let (j, r2) := draw r1
    (motif_sequence (2 + j % 2) m, r2)

/-- Python `generate_next_pitch` fed from the random stream. -/
def generate_next_pitch_r (tbl : TransTable) (state : List Int) (ctx : MusicalContext)
    (r : RState) : Option Int × RState :=
  let (k, r1) := draw r
  let (kc, r2) := draw r1
  (generate_next_pitch tbl state ctx k kc, r2)

/-- Inner loop of `BeethovenComposerAdvanced._generate_markov_melody`:
produce `n` notes, threading the pitch state pair, the rhythm state pair,
the context history and the random source.  A raise inside
`generate_next_pitch` aborts (`none`). -/
def markov_melody_go (tbl : TransTable) (rtbl : RhythmTable) :
    Nat → List Int → List ℚ → MusicalContext → RState →
    Option (List (Int × ℚ) × MusicalContext × RState)
  | 0, _, _, ctx, r => some ([], ctx, r)
  | n + 1, st, rst, ctx, r =>
    match generate_next_pitch_r tbl st ctx r with
    | (none, _) => none
    | (some p, r1) =>
      let (k3, r2) := draw r1
      let rh : ℚ :=
        match lookupTable rtbl rst with
        | some [] => 1
        | some (c :: cs) =>
          ((c :: cs).map Prod.fst).getD (k3 % (c :: cs).length) 1
        | none => [1/2, 1, 1, 2].getD (k3 % 4) 1
      let ctx1 := update_pitch_history ctx p
      match markov_melody_go tbl rtbl n (st.drop 1 ++ [p]) (rst.drop 1 ++ [rh]) ctx1 r2 with
      | none => none
      | some (ns, ctxF, rF) => some ((p, rh) :: ns, ctxF, rF)

/-- Python `BeethovenComposerAdvanced._generate_markov_melody`: initial state from
the last two recent pitches (default `(60, 62)`), rhythm state `(1.0, 1.0)`. -/
def generate_markov_melody (tbl : TransTable) (rtbl : RhythmTable) (length : Nat)
    (ctx : MusicalContext) (r : RState) :
    Option (List (Int × ℚ) × MusicalContext × RState) :=
  let st :=
    if 2 ≤ ctx.recent_pitches.length then
      ctx.recent_pitches.drop (ctx.recent_pitches.length - 2)
    else [60, 62]
  markov_melody_go tbl rtbl length st [1, 1] ctx r

/-- Python `BeethovenComposerAdvanced._select_dynamic`. -/
def select_dynamic (character : String) (k : Nat) : String :=
  let l :=
    if character = "energetic" then ["f", "mf", "f", "ff"]
    else if character = "lyrical" then ["p", "mp", "p", "pp"]
    else if character = "intense" then ["ff", "f", "ff", "fff"]
    else if character = "modulatory" then ["mf", "mp", "mf", "f"]
    else if character = "conclusive" then ["f", "mf", "f", "ff"]
    else if character = "unstable" then ["mp", "mf", "f", "mf"]
    else ["mf"]
  l.getD (k % l.length) "mf"

/-- Python `BeethovenComposerAdvanced._set_context_for_character`. -/
def set_context_for_character (ctx : MusicalContext) (character : String) : MusicalContext :=
  let s : ℚ × String × ℚ :=
    if character = "energetic" then (7/10, "f", 1)
    else if character = "lyrical" then (3/10, "p", 2)
    else if character = "intense" then (9/10, "ff", 1/2)
    else if character = "modulatory" then (6/10, "mf", 1)
    else if character = "conclusive" then (2/10, "f", 2)
    else if character = "unstable" then (8/10, "mf", 1/2)
    else (1/2, "mf", 1)
  { ctx with tension_level := s.1, dynamic_level := s.2.1, harmonic_rhythm := s.2.2 }

/-- A score element: the pitches sounding together and their duration
(a note is a singleton pitch list). -/
abbrev MElement := List Int × ℚ

/-- A measure of the assembled score. -/
structure MMeasure where
  number : Nat
  dynamic : Option String
  elems : List MElement

/-- Python `BeethovenComposerAdvanced._create_alberti_bass`: per chord symbol the
low-mid-high-mid pattern in sixteenths. -/
def create_alberti_bass (ctx : MusicalContext) (symbols : List String) (r : RState) :
    List MElement × RState :=
  symbols.foldl
    (fun acc sym =>
      let (k, r1) := draw acc.2
      let ps := (realize_harmony sym ctx k).1
      (acc.1 ++
        [ ([ps.getD 0 0], 1/4), ([ps.getD 1 0], 1/4)
        , ([ps.getD 2 0], 1/4), ([ps.getD 1 0], 1/4) ], r1))
    ([], r)

/-- Python `chords[-1].quarterLength += 1.0` (no-op on an empty list). -/
def extend_last (l : List MElement) : List MElement :=
  match l.getLast? with
  | none => l
  | some e => l.dropLast ++ [(e.1, e.2 + 1)]

/-- Python `BeethovenComposerAdvanced._create_sustained_chords`: merge consecutive
identical chord symbols into one extended chord. -/
def create_sustained_chords (ctx : MusicalContext) (symbols : List String) (r : RState) :
    List MElement × RState :=
  let res := symbols.foldl
    (fun (acc : List MElement × Option String × RState) sym =>
      if acc.2.1 = some sym then (extend_last acc.1, acc.2.1, acc.2.2)
      else
        let (k, r1) := draw acc.2.2
        let ps := (realize_harmony sym ctx k).1
        (acc.1 ++ [(ps, 1)], some sym, r1))
    ([], none, r)
  (res.1, res.2.2)

/-- Python `BeethovenComposerAdvanced._create_tremolo`: 8 alternations between the
first and third chord tone in 32nd notes. -/
def create_tremolo (ctx : MusicalContext) (symbols : List String) (r : RState) :
    List MElement × RState :=
  symbols.foldl
    (fun acc sym =>
      let (k, r1) := draw acc.2
      let ps := (realize_harmony sym ctx k).1
      (acc.1 ++
        ((List.range 8).map (fun _ =>
          [(([ps.getD 0 0] : List Int), (1/8 : ℚ)), ([ps.getD 2 0], 1/8)])).flatten, r1))
    ([], r)

/-- Python `BeethovenComposerAdvanced._create_standard_accompaniment`: bass note
then the upper chord, each half a beat. -/
def create_standard_accompaniment (ctx : MusicalContext) (symbols : List String) (r : RState) :
    List MElement × RState :=
  symbols.foldl
    (fun acc sym =>
      let (k, r1) := draw acc.2
      let ps := (realize_harmony sym ctx k).1
      (acc.1 ++ [([ps.getD 0 0], 1/2), (ps.drop 1, 1/2)], r1))
    ([], r)

/-- One right-hand measure of `_generate_section` (lines 680-700): draw the
motif-vs-Markov coin (`random.random() < 0.7` becomes `k % 10 < 7`), build
the melody, and insert a dynamic at the start of every 4th measure. -/
def melody_measure (tbl : TransTable) (rtbl : RhythmTable) (mIdx startMeasure : Nat)
    (primary : MotivicCell) (character : String) (ctx : MusicalContext) (r : RState) :
    Option (MMeasure × MusicalContext × RState) :=
  let (k, r1) := draw r
  let step : Option (List MElement × MusicalContext × RState) :=
    if k % 10 < 7 ∧ (character = "energetic" ∨ character = "intense") then
      let dv := develop_motif_r primary r1
      let res := realize_motif dv.1 ctx
      some (res.1.map (fun pr => ([pr.1], pr.2)), res.2, dv.2)
    else
      match generate_markov_melody tbl rtbl 4 ctx r1 with
      | none => none
      | some (ns, ctx2, r2) => some (ns.map (fun pr => ([pr.1], pr.2)), ctx2, r2)
  match step with
  | none => none
  | some (elems, ctx2, r2) =>
    if mIdx % 4 = 0 then
      let (k2, r3) := draw r2
      some (⟨startMeasure + mIdx + 1, some (select_dynamic character k2), elems⟩, ctx2, r3)
    else some (⟨startMeasure + mIdx + 1, none, elems⟩, ctx2, r2)

/-- The right-hand loop of `_generate_section`: one measure per index. -/
def section_melody (tbl : TransTable) (rtbl : RhythmTable) :
    Nat → Nat → Nat → MotivicCell → String → MusicalContext → RState →
    Option (List MMeasure × MusicalContext × RState)
  | 0, _, _, _, _, ctx, r => some ([], ctx, r)
  | n + 1, mIdx, startMeasure, primary, character, ctx, r =>
    match melody_measure tbl rtbl mIdx startMeasure primary character ctx r with
    | none => none
    | some (mea, ctx2, r2) =>
      match section_melody tbl rtbl n (mIdx + 1) startMeasure primary character ctx2 r2 with
      | none => none
      | some (ms, ctxF, rF) => some (mea :: ms, ctxF, rF)

/-- The left-hand loop of `_generate_section` (lines 702-736): the measure's
4-beat harmony slice realized by the character-dispatched accompaniment. -/
def section_accomp : Nat → Nat → Nat → String → List String → MusicalContext → RState →
    List MMeasure × RState
  | 0, _, _, _, _, _, r => ([], r)
  | n + 1, mIdx, startMeasure, character, harmony, ctx, r =>
    let slice := (harmony.drop (mIdx * 4)).take 4
    let pat :=
      if character = "energetic" then create_alberti_bass ctx slice r
      else if character = "lyrical" then create_sustained_chords ctx slice r
      else if character = "intense" then create_tremolo ctx slice r
      else create_standard_accompaniment ctx slice r
    let res := section_accomp n (mIdx + 1) startMeasure character harmony ctx pat.2
    (⟨startMeasure + mIdx + 1, none, pat.1⟩ :: res.1, res.2)

/-- The two voices of one generated section. -/
structure SectionMusic where
  right : List MMeasure
  left : List MMeasure

/-- Python `BeethovenComposerAdvanced._generate_section`: set the context for the
section character, generate a 4-chords-per-measure progression, then the
melody loop followed by the accompaniment loop. -/
def generate_section (plan : SectionPlan) (primary : MotivicCell) (startMeasure : Nat)
    (ctx : MusicalContext) (r : RState) :
    Option (SectionMusic × MusicalContext × RState) :=
  let ctx1 := set_context_for_character ctx plan.character
  let gp := generate_progression (plan.measures * 4) ctx1 r
  match section_melody default_table default_rhythm_table plan.measures 0 startMeasure
      primary plan.character ctx1 gp.2 with
  | none => none
  | some (rightMs, ctx2, r2) =>
    let res := section_accomp plan.measures 0 startMeasure plan.character gp.1 ctx2 r2
    some (⟨rightMs, res.1⟩, ctx2, res.2)

/-- The assembled two-part score. -/
structure Score where
  title : String
  parts : List (List MMeasure)

/-- The section loop of `compose` (lines 632-650): set the section type,
generate the section, append both hands, advance the measure counter. -/
def compose_sections :
    List SectionPlan → MotivicCell → List MMeasure → List MMeasure →
    MusicalContext → RState → Nat → Option (List MMeasure × List MMeasure)
  | [], _, rh, lh, _, _, _ => some (rh, lh)
  | plan :: rest, primary, rh, lh, ctx, r, cur =>
    let ctx1 := { ctx with section_type := plan.parent_section }
    match generate_section plan primary cur ctx1 r with
    | none => none
    | some (music, ctx2, r2) =>
      compose_sections rest primary (rh ++ music.right) (lh ++ music.left) ctx2 r2
        (cur + plan.measures)

/-- Python `BeethovenComposerAdvanced.compose`: plan the structure, create the seed
motif, generate every section, and assemble the right- and left-hand parts
into the score. -/
def compose (total_measures : Nat) (form : String) (r : RState) : Option Score :=
  let plans := plan_structure total_measures form
  let pm := create_primary_motif r
  match compose_sections plans pm.1 [] [] initial_context pm.2 0 with
  | none => none
  | some (rh, lh) =>
    some { title := "BeethovenLab Composition in " ++ form ++ " Form", parts := [rh, lh] }

/-! ## Verification auxiliaries -/

/-- Well-formedness of a transition table: every recorded state has a
non-empty candidate list and every recorded candidate was counted at least
once. -/
def table_wf {α : Type} (tbl : List (List α × List (α × Nat))) : Prop :=
  ∀ e ∈ tbl, e.2 ≠ [] ∧ ∀ pc ∈ e.2, 1 ≤ pc.2

/-- The all-zeros random stream, used as a concrete oracle.  Under it the
first melody measure of every energetic section takes the motif path, which
seeds the pitch history, so a whole composition run completes. -/
def sample_r0 : RState := ⟨fun _ => 0, 0⟩

/-- The all-sevens random stream: its first melody-path draw fails the
`random() < 0.7` test (7 % 10 < 7 is false), sending the very first measure
down the Markov path while the pitch history is still empty. -/
def sample_r7 : RState := ⟨fun _ => 7, 0⟩

/-- A tiny trained pitch table: the single sequence 60, 62, 64 at order 2. -/
def sample_table : TransTable := train_model 2 [] [60, 62, 64]

/-- A context whose recent-pitch history is non-empty. -/
def sample_ctx : MusicalContext := { initial_context with recent_pitches := [60, 62] }

/-- The "fate" seed motif, used as a concrete motif input. -/
def sample_motif : MotivicCell := ⟨[0, 0, 0, -4], [1/2, 1/2, 1/2, 3/2], "descending", 1⟩

/-- The first section plan of `plan_structure 32 "sonata"`: the two-measure
energetic first theme of the exposition. -/
def sample_plan : SectionPlan := ⟨"exposition_first_theme", 2, "I", "energetic", "exposition"⟩

/-- The score produced by `compose 32 "sonata"` under the all-zeros stream
(a completing run: 28 measures in each hand). -/
def sample_score : Score := (compose 32 "sonata" sample_r0).getD ⟨"", []⟩

/-- The section produced by `generate_section` on `sample_plan` under the
all-zeros stream. -/
def sample_section : SectionMusic × MusicalContext × RState :=
  (generate_section sample_plan sample_motif 0 initial_context sample_r0).getD
    (⟨[], []⟩, initial_context, sample_r0)

/-! ## Helper lemmas -/

theorem map_double_half (l : List ℚ) : (l.map (fun r => r * 2)).map (fun r => r * (1/2)) = l := by
  induction l with
  | nil => rfl
  | cons a t ih => simp [ih]

theorem map_half_double (l : List ℚ) : (l.map (fun r => r * (1/2))).map (fun r => r * 2) = l := by
  induction l with
  | nil => rfl
  | cons a t ih => simp [ih]

theorem fragment_length (ff : Bool) (m : MotivicCell)
    (hlen : m.intervals.length = m.rhythm.length) :
    (fragment ff m).intervals.length = (fragment ff m).rhythm.length := by
  unfold fragment
  split
  · exact hlen
  · split <;> simp [hlen]

theorem motif_sequence_length (reps : Nat) (m : MotivicCell)
    (hlen : m.intervals.length = m.rhythm.length) :
    (motif_sequence reps m).intervals.length = (motif_sequence reps m).rhythm.length := by
  simp [motif_sequence, List.length_flatten, List.map_replicate, hlen]

theorem apply_technique_length (k : Nat) (ff : Bool) (reps : Nat) (m : MotivicCell)
    (hlen : m.intervals.length = m.rhythm.length) :
    (apply_technique k ff reps m).intervals.length =
      (apply_technique k ff reps m).rhythm.length := by
  unfold apply_technique
  split
  · simpa [transpose] using hlen
  · simpa [invert] using hlen
  · simpa [retrograde] using hlen
  · simpa [augment] using hlen
  · simpa [diminish] using hlen
  · exact fragment_length _ _ hlen
  · exact motif_sequence_length _ _ hlen

/-! ## Claim theorems -/

/-- C5: the motif transformations satisfy their algebraic laws:
`invert` is an involution on intervals, `retrograde` is an involution on
intervals and rhythm, and `augment` and `diminish` are mutually inverse on
every rhythm value, exactly, with no drift. -/
theorem motif_transform_involutions (m : MotivicCell) :
    (invert (invert m)).intervals = m.intervals ∧
    (retrograde (retrograde m)).intervals = m.intervals ∧
    (retrograde (retrograde m)).rhythm = m.rhythm ∧
    (diminish (augment m)).rhythm = m.rhythm ∧
    (augment (diminish m)).rhythm = m.rhythm := by
  refine ⟨?_, ?_, ?_, ?_, ?_⟩
  · simp [invert]
  · simp [retrograde]
  · simp [retrograde]
  · exact map_double_half m.rhythm
  · exact map_half_double m.rhythm

/-- C10: every development technique, and `develop_motif` with any
technique argument, preserves the equality of the interval-list and
rhythm-list lengths, so realization always has one duration per interval. -/
theorem develop_motif_length_invariant (technique : Option String) (k : Nat) (ff : Bool)
    (reps : Nat) (m : MotivicCell) (hlen : m.intervals.length = m.rhythm.length) :
    (transpose m).intervals.length = (transpose m).rhythm.length ∧
    (invert m).intervals.length = (invert m).rhythm.length ∧
    (retrograde m).intervals.length = (retrograde m).rhythm.length ∧
    (augment m).intervals.length = (augment m).rhythm.length ∧
    (diminish m).intervals.length = (diminish m).rhythm.length ∧
    (fragment ff m).intervals.length = (fragment ff m).rhythm.length ∧
    (motif_sequence reps m).intervals.length = (motif_sequence reps m).rhythm.length ∧
    (develop_motif technique k ff reps m).intervals.length =
      (develop_motif technique k ff reps m).rhythm.length := by
  refine ⟨by simpa [transpose] using hlen, by simpa [invert] using hlen,
    by simpa [retrograde] using hlen, by simpa [augment] using hlen,
    by simpa [diminish] using hlen, fragment_length _ _ hlen,
    motif_sequence_length _ _ hlen, ?_⟩
  cases technique with
  | none => exact apply_technique_length _ _ _ _ hlen
  | some t =>
    simp only [develop_motif]
    split_ifs
    · simpa [transpose] using hlen
    · simpa [invert] using hlen
    · simpa [retrograde] using hlen
    · simpa [augment] using hlen
    · simpa [diminish] using hlen
    · exact fragment_length _ _ hlen
    · exact motif_sequence_length _ _ hlen
    · exact apply_technique_length _ _ _ _ hlen

/-- Witness for C10 at the fate motif with the `sequence` technique. -/
theorem develop_motif_length_invariant_witness :
    (develop_motif (some "sequence") 0 true 2 sample_motif).intervals.length =
      (develop_motif (some "sequence") 0 true 2 sample_motif).rhythm.length :=
  (develop_motif_length_invariant (some "sequence") 0 true 2 sample_motif (by decide)).2.2.2.2.2.2.2

theorem bump_ne_nil {α : Type} [DecidableEq α] (t : List (α × Nat)) (p : α) :
    bump t p ≠ [] := by
  cases t with
  | nil => simp [bump]
  | cons c rest =>
    obtain ⟨q, n⟩ := c
    simp only [bump]
    split <;> simp

theorem bump_counts {α : Type} [DecidableEq α] (t : List (α × Nat)) (p : α)
    (h : ∀ pc ∈ t, 1 ≤ pc.2) : ∀ pc ∈ bump t p, 1 ≤ pc.2 := by
  induction t with
  | nil => simp [bump]
  | cons c rest ih =>
    obtain ⟨q, n⟩ := c
    simp only [bump]
    split
    · intro pc hpc
      rcases List.mem_cons.mp hpc with h1 | h1
      · have := h (q, n) (List.mem_cons_self _ _)
        subst h1
        simp only at this ⊢
        omega
      · exact h pc (List.mem_cons_of_mem _ h1)
    · intro pc hpc
      rcases List.mem_cons.mp hpc with h1 | h1
      · subst h1
        exact h (q, n) (List.mem_cons_self _ _)
      · exact ih (fun x hx => h x (List.mem_cons_of_mem _ hx)) pc h1

theorem addTransition_wf {α : Type} [DecidableEq α] (tbl : List (List α × List (α × Nat)))
    (st : List α) (p : α) (h : table_wf tbl) : table_wf (addTransition tbl st p) := by
  induction tbl with
  | nil =>
    intro e he
    simp only [addTransition] at he
    rcases List.mem_singleton.mp he with rfl
    constructor
    · simp
    · simp
  | cons c rest ih =>
    obtain ⟨s, cands⟩ := c
    simp only [addTransition]
    split
    · intro e he
      rcases List.mem_cons.mp he with rfl | h1
      · refine ⟨bump_ne_nil _ _, ?_⟩
        exact bump_counts _ _ (h (s, cands) (List.mem_cons_self _ _)).2
      · exact h e (List.mem_cons_of_mem _ h1)
    · intro e he
      rcases List.mem_cons.mp he with rfl | h1
      · exact h (s, cands) (List.mem_cons_self _ _)
      · exact ih (fun x hx => h x (List.mem_cons_of_mem _ hx)) e h1

theorem train_model_wf {α : Type} [DecidableEq α] (order : Nat)
    (tbl : List (List α × List (α × Nat))) (seq : List α) (h : table_wf tbl) :
    table_wf (train_model order tbl seq) := by
  induction seq generalizing tbl with
  | nil => rw [train_model]; exact h
  | cons p rest ih =>
    rw [train_model]
    split
    · exact ih _ (addTransition_wf _ _ _ h)
    · exact h

theorem trained_wf (order : Nat) (tbl : TransTable) (h : Trained order tbl) : table_wf tbl := by
  induction h with
  | empty => intro e he; cases he
  | step tbl seq _ ih => exact train_model_wf order tbl seq ih

theorem lookupTable_mem {α β : Type} [DecidableEq α] (l : List (α × β)) (key : α) (v : β)
    (h : lookupTable l key = some v) : (key, v) ∈ l := by
  induction l with
  | nil => simp [lookupTable] at h
  | cons c rest ih =>
    obtain ⟨s, cv⟩ := c
    simp only [lookupTable] at h
    split at h
    · rename_i hs
      obtain rfl := Option.some.inj h
      subst hs
      exact List.mem_cons_self _ _
    · exact List.mem_cons_of_mem _ (ih h)

theorem one_le_adjust_weight (ctx : MusicalContext) (lastR : Int) (p : Int) (c : Nat)
    (hc : 1 ≤ c) : 1 ≤ adjust_weight ctx lastR p c := by
  have hc1 : (1 : ℚ) ≤ (c : ℚ) := by exact_mod_cast hc
  simp only [adjust_weight]
  split_ifs <;> nlinarith

theorem list_sum_pos_of_one_le (l : List ℚ) (hne : l ≠ []) (h : ∀ x ∈ l, 1 ≤ x) :
    0 < l.sum := by
  cases l with
  | nil => exact absurd rfl hne
  | cons a t =>
    have ha : 1 ≤ a := h a (List.mem_cons_self _ _)
    have ht : 0 ≤ t.sum :=
      List.sum_nonneg (fun x hx => le_trans zero_le_one (h x (List.mem_cons_of_mem _ hx)))
    simp only [List.sum_cons]
    linarith

theorem get_mod_isSome {α : Type} (l : List α) (hne : l ≠ []) (k : Nat) :
    (l.get? (k % l.length)).isSome := by
  have hlen : 0 < l.length := List.length_pos.mpr hne
  have : k % l.length < l.length := Nat.mod_lt _ hlen
  rw [List.get?_eq_getElem?, List.getElem?_eq_getElem this]
  simp

theorem ite_some_get_isSome (last : Int) (A B : List Int) (kc : Nat) :
    (if A.isEmpty then some last
     else if B.isEmpty then some last else B.get? (kc % B.length)).isSome := by
  split
  · simp
  · split
    · simp
    · rename_i hB
      apply get_mod_isSome
      intro hcon
      rw [hcon] at hB
      simp at hB

/-- C1: on a state present in a trained pitch table, `generate_next_pitch`
returns only pitches from that state's recorded candidate set — every
recorded candidate was observed at least once during training. -/
theorem generate_next_pitch_no_hallucination (order : Nat) (tbl : TransTable)
    (state : List Int) (ctx : MusicalContext) (k kc : Nat) (cands : List (Int × Nat)) (p : Int)
    (hT : Trained order tbl) (hlk : lookupTable tbl state = some cands)
    (hres : generate_next_pitch tbl state ctx k kc = some p) :
    p ∈ cands.map Prod.fst := by
  have hwf := trained_wf order tbl hT (state, cands) (lookupTable_mem _ _ _ hlk)
  obtain ⟨hne, hcnt⟩ := hwf
  simp only [generate_next_pitch, hlk] at hres
  cases cands with
  | nil => exact absurd rfl hne
  | cons c cs =>
    cases hrec : ctx.recent_pitches.getLast? with
    | none =>
      simp only [adjust_pitch_probabilities, hrec] at hres
      exact Option.noConfusion hres
    | some lastR =>
      simp only [adjust_pitch_probabilities, hrec] at hres
      set adjusted := (c :: cs).map (fun pc => (pc.1, adjust_weight ctx lastR pc.1 pc.2))
        with hadj
      have hsum : (adjusted.map Prod.snd).sum ≠ 0 := by
        have hpos : 0 < (adjusted.map Prod.snd).sum := by
          apply list_sum_pos_of_one_le
          · simp [hadj]
          · intro x hx
            simp only [hadj, List.map_map, List.mem_map, Function.comp] at hx
            obtain ⟨pc, hpc, rfl⟩ := hx
            exact one_le_adjust_weight _ _ _ _ (hcnt pc hpc)
        exact ne_of_gt hpos
      rw [if_neg hsum] at hres
      have hmem := List.get?_mem hres
      simp only [hadj, List.map_map, List.mem_map, Function.comp] at hmem
      obtain ⟨pc, hpc, rfl⟩ := hmem
      exact List.mem_map.mpr ⟨pc, hpc, rfl⟩

/-- Witness for C1: the table trained on 60,62,64 at state (60,62) returns
64, the unique recorded candidate. -/
theorem generate_next_pitch_no_hallucination_witness :
    (64 : Int) ∈ ([((64 : Int), (1 : Nat))].map Prod.fst) :=
  generate_next_pitch_no_hallucination 2 sample_table [60, 62] sample_ctx 0 0
    [((64 : Int), 1)] 64
    (Trained.step [] [60, 62, 64] Trained.empty) (by decide) (by with_unfolding_all decide)

/-- Counterexample for C2: on a state present in the trained table and a
context with an empty recent-pitch history, `generate_next_pitch` raises
(IndexError from `list(context.recent_pitches)[-1]`), modelled as `none`. -/
theorem generate_next_pitch_raises_on_empty_history :
    generate_next_pitch sample_table [60, 62] initial_context 0 0 = none := by
  with_unfolding_all decide

/-- C2 (amended): `generate_next_pitch` never raises on a non-empty state
tuple as long as the recent-pitch history is non-empty; unknown states fall
back to the context-driven pitch, a fallback with no admissible candidate
repeats the last pitch of the state, and a known state whose adjusted
weights sum to zero returns the last symbol of the state. -/
theorem generate_next_pitch_total_on_nonempty_history (tbl : TransTable) (state : List Int)
    (ctx : MusicalContext) (k kc : Nat) (hst : state ≠ [])
    (hrec : ctx.recent_pitches ≠ []) :
    (generate_next_pitch tbl state ctx k kc).isSome := by
  have hlast := List.getLast?_eq_getLast state hst
  cases hlk : lookupTable tbl state with
  | none =>
    simp only [generate_next_pitch, hlk, generate_contextual_pitch]
    rw [hlast]
    exact ite_some_get_isSome _ _ _ kc
  | some cands =>
    simp only [generate_next_pitch, hlk]
    cases cands with
    | nil =>
      simp only [adjust_pitch_probabilities]
      rw [hlast]
      simp
    | cons c cs =>
      have hrl := List.getLast?_eq_getLast ctx.recent_pitches hrec
      simp only [adjust_pitch_probabilities, hrl]
      split
      · rw [hlast]; simp
      · apply get_mod_isSome
        simp

/-- Witness for C2 (amended) at the trained table and a two-pitch history. -/
theorem generate_next_pitch_total_on_nonempty_history_witness :
    (generate_next_pitch sample_table [60, 62] sample_ctx 0 0).isSome :=
  generate_next_pitch_total_on_nonempty_history sample_table [60, 62] sample_ctx 0 0
    (by decide) (by decide)

theorem getD_prop {α : Type} (P : α → Prop) (l : List α) (n : Nat) (d : α)
    (hl : ∀ x ∈ l, P x) (hd : P d) : P (l.getD n d) := by
  induction l generalizing n with
  | nil => simpa [List.getD] using hd
  | cons a t ih =>
    cases n with
    | zero => exact hl a (List.mem_cons_self _ _)
    | succ n =>
      simp only [List.getD_cons_succ]
      exact ih n (fun x hx => hl x (List.mem_cons_of_mem _ hx))

theorem head?_append_left {α : Type} (l l2 : List α) (h : l ≠ []) :
    (l ++ l2).head? = l.head? := by
  cases l with
  | nil => exact absurd rfl h
  | cons a t => rfl

theorem drop_one_ne_nil {α : Type} (l : List α) (h : 2 ≤ l.length) : l.drop 1 ≠ [] := by
  apply List.ne_nil_of_length_pos
  simp only [List.length_drop]
  omega

theorem two_le_select_cadence_length (ctx : MusicalContext) (k : Nat) :
    2 ≤ (select_cadence ctx k).length := by
  unfold select_cadence
  split_ifs
  · refine getD_prop (fun l : List String => 2 ≤ l.length) _ _ _ ?_ (by simp)
    intro x hx
    simp only [List.mem_cons, List.not_mem_nil, or_false] at hx
    rcases hx with rfl | rfl <;> simp
  · refine getD_prop (fun l : List String => 2 ≤ l.length) _ _ _ ?_ (by simp)
    intro x hx
    simp only [List.mem_cons, List.not_mem_nil, or_false] at hx
    rcases hx with rfl | rfl | rfl <;> simp
  · simp

/-- Each loop iteration of `generate_progression` appends at least one
chord to the progression: the source's `i += len(cadence) - 1` rebinds the
`for` variable, which Python resets at the next iteration, so no iteration
is skipped and spliced cadence chords are purely additional. -/
theorem prog_step_append (L : Nat) (ctx : MusicalContext) (acc : List String × RState)
    (i : Nat) :
    ∃ tail : List String, tail ≠ [] ∧ (prog_step L ctx acc i).1 = acc.1 ++ tail := by
  simp only [prog_step, draw]
  split
  · split
    · exact ⟨_, drop_one_ne_nil _ (two_le_select_cadence_length _ _), rfl⟩
    · exact ⟨_, by simp, rfl⟩
  · exact ⟨_, by simp, rfl⟩

theorem prog_fold_grow (L : Nat) (ctx : MusicalContext) (l : List Nat)
    (acc : List String × RState) (hne : acc.1 ≠ []) :
    (l.foldl (prog_step L ctx) acc).1.head? = acc.1.head? ∧
    acc.1.length + l.length ≤ (l.foldl (prog_step L ctx) acc).1.length := by
  induction l generalizing acc with
  | nil => simp
  | cons i t ih =>
    obtain ⟨tail, htne, heq⟩ := prog_step_append L ctx acc i
    have hne2 : (prog_step L ctx acc i).1 ≠ [] := by
      rw [heq]
      simp [hne]
    obtain ⟨ih1, ih2⟩ := ih (prog_step L ctx acc i) hne2
    have hgrow : acc.1.length + 1 ≤ (prog_step L ctx acc i).1.length := by
      rw [heq, List.length_append]
      have := List.length_pos.mpr htne
      omega
    refine ⟨?_, ?_⟩
    · rw [List.foldl_cons, ih1, heq, head?_append_left _ _ hne]
    · rw [List.foldl_cons]
      simp only [List.length_cons]
      omega

/-- Counterexample for C3: a length-19 exposition progression under the
all-zeros stream contains 21 chords, not 19 — the loop-counter advance
after a cadence splice has no effect, so the spliced chords are extra. -/
theorem generate_progression_length_not_exact :
    (generate_progression 19 initial_context sample_r0).1.length = 21 ∧
    ¬ (generate_progression 19 initial_context sample_r0).1.length = 19 := by
  constructor
  · with_unfolding_all decide
  · with_unfolding_all decide

/-- C3 (amended): the progression starts on `I`, and since the position
counter is not actually advanced past spliced cadence chords, the result
has at least `length` entries (`length` plus one extra chord per spliced
3-chord cadence) rather than exactly `length`. -/
theorem generate_progression_starts_on_I_min_length (length : Nat) (ctx : MusicalContext)
    (r : RState) (h : 1 ≤ length) :
    (generate_progression length ctx r).1.head? = some "I" ∧
    length ≤ (generate_progression length ctx r).1.length := by
  obtain ⟨h1, h2⟩ :=
    prog_fold_grow length ctx (List.range' 1 (length - 1)) (["I"], r) (by simp)
  constructor
  · exact h1
  · simp only [List.length_range', List.length_cons, List.length_nil] at h2
    unfold generate_progression
    omega

/-- Witness for C3 (amended) at length 5. -/
theorem generate_progression_starts_on_I_min_length_witness :
    (generate_progression 5 initial_context sample_r0).1.head? = some "I" ∧
    5 ≤ (generate_progression 5 initial_context sample_r0).1.length :=
  generate_progression_starts_on_I_min_length 5 initial_context sample_r0 (by decide)

theorem clamp_range_bounds (p : Int) (h1 : 36 ≤ p) (h2 : p ≤ 96) :
    48 ≤ clamp_range p ∧ clamp_range p ≤ 84 := by
  unfold clamp_range
  split_ifs <;> omega

theorem realize_motif_go_range (l : List (Int × ℚ)) (cur : Int) (ctx : MusicalContext)
    (hcur : 48 ≤ cur ∧ cur ≤ 84) (hl : ∀ pr ∈ l, |pr.1| ≤ 12) :
    ∀ p ∈ (realize_motif_go cur ctx l).1.map Prod.fst, 48 ≤ p ∧ p ≤ 84 := by
  induction l generalizing cur ctx with
  | nil =>
    intro p hp
    simp [realize_motif_go] at hp
  | cons pr t ih =>
    obtain ⟨i, rh⟩ := pr
    have hi : |i| ≤ 12 := hl (i, rh) (List.mem_cons_self _ _)
    have habs := abs_le.mp hi
    have hstep : 48 ≤ clamp_range (cur + i) ∧ clamp_range (cur + i) ≤ 84 :=
      clamp_range_bounds (cur + i) (by omega) (by omega)
    intro p hp
    simp only [realize_motif_go, List.map_cons, List.mem_cons] at hp
    rcases hp with rfl | hp
    · exact hstep
    · exact ih (clamp_range (cur + i)) (update_pitch_history ctx (clamp_range (cur + i)))
        hstep (fun x hx => hl x (List.mem_cons_of_mem _ hx)) p hp

/-- Counterexample for C4: the single ±12 octave shift does not bring a large
downward leap back into range: realizing the one-interval motif (-25) from
the default start pitch 60 emits pitch 47, outside [48, 84]. -/
theorem realize_motif_range_violated :
    (realize_motif ⟨[-25], [1], "mixed", 1⟩ initial_context).1.map Prod.fst = [47] ∧
    ¬ (48 ≤ (47 : Int) ∧ (47 : Int) ≤ 84) := by
  constructor
  · with_unfolding_all decide
  · decide

/-- C4 (amended): provided the start pitch (the last recent pitch, or 60 on
an empty history) lies in [48, 84] and every interval of the motif has
absolute value at most 12, every pitch emitted by `_realize_motif` lies in
[48, 84], out-of-range steps being corrected by a single octave shift of
±12 semitones rather than truncation. -/
theorem realize_motif_range_bounded (m : MotivicCell) (ctx : MusicalContext)
    (hstart : 48 ≤ motif_start ctx ∧ motif_start ctx ≤ 84)
    (hint : ∀ i ∈ m.intervals, |i| ≤ 12) :
    ∀ p ∈ (realize_motif m ctx).1.map Prod.fst, 48 ≤ p ∧ p ≤ 84 := by
  unfold realize_motif
  apply realize_motif_go_range _ _ _ hstart
  intro pr hpr
  exact hint pr.1 (List.of_mem_zip hpr).1

/-- Witness for C4 (amended): the fate motif from the default start pitch. -/
theorem realize_motif_range_bounded_witness : 48 ≤ (60 : Int) ∧ (60 : Int) ≤ 84 :=
  realize_motif_range_bounded sample_motif initial_context
    (by with_unfolding_all decide) (by decide) 60 (by with_unfolding_all decide)

theorem lookupTable_eq_none {α β : Type} [DecidableEq α] (l : List (α × β)) (key : α)
    (h : key ∉ l.map Prod.fst) : lookupTable l key = none := by
  induction l with
  | nil => rfl
  | cons c rest ih =>
    obtain ⟨s, v⟩ := c
    simp only [List.map_cons, List.mem_cons] at h
    push_neg at h
    simp only [lookupTable]
    rw [if_neg (fun hh => h.1 hh.symm)]
    exact ih h.2

/-- C6: an unknown chord symbol falls back to the tonic: `_select_next_chord`
returns `I` for a symbol absent from the progression-rule table, and
`realize_harmony` builds its triad on scale-degree offset 0, i.e. on the
tonic root. -/
theorem unknown_symbol_tonic_fallback (symbol : String) (ctx : MusicalContext) (k : Nat)
    (tonic : Int) (h : symbol ∉ ["I", "ii", "iii", "IV", "V", "vi", "vii°"]) :
    select_next_chord symbol ctx k = "I" ∧ rootOffset symbol = 0 ∧
    (triad_base symbol tonic).head? = some tonic := by
  have hrules : lookupTable progression_rules symbol = none := by
    apply lookupTable_eq_none
    simpa [progression_rules] using h
  have hroot : lookupTable root_map symbol = none := by
    apply lookupTable_eq_none
    simpa [root_map] using h
  have hoff : rootOffset symbol = 0 := by simp [rootOffset, hroot]
  refine ⟨by simp [select_next_chord, hrules], hoff, ?_⟩
  simp only [triad_base, hoff, add_zero]
  split_ifs <;> rfl

/-- Witness for C6 at the unknown symbol `N6`. -/
theorem unknown_symbol_tonic_fallback_witness :
    select_next_chord "N6" initial_context 0 = "I" ∧ rootOffset "N6" = 0 ∧
    (triad_base "N6" 60).head? = some 60 :=
  unknown_symbol_tonic_fallback "N6" initial_context 0 60 (by decide)

/-- Counterexample for C7: the section budget is computed with `int()`
truncation, not rounding: the exposition budget of a 32-measure sonata is
`int(32 * 0.3) = 9`, while `round(32 * 0.3) = 10`. -/
theorem section_budget_truncates_not_rounds :
    sectionBudget 32 (3/10) = 9 ∧ round ((32 : ℚ) * (3/10)) = 10 ∧
    ¬ ((sectionBudget 32 (3/10) : ℤ) = round ((32 : ℚ) * (3/10))) := by
  refine ⟨by with_unfolding_all decide, ?_, ?_⟩
  · rw [round_eq]
    norm_num
  · rw [round_eq]
    norm_num
    with_unfolding_all decide

/-- C7 (amended): `plan_structure(32, 'sonata')` gives each top-level
section a measure budget of `int(32 × proportion)` (truncation: 9, 12, 9 —
not rounding), splits each budget evenly across the four subsections by
integer division, and the resulting subsections sum to 28 ≤ 32 with parent
sections exposition, development, recapitulation, four entries each, in
order. -/
theorem plan_structure_32_sonata_properties :
    sectionBudget 32 (3/10) = 9 ∧ sectionBudget 32 (4/10) = 12 ∧
    (plan_structure 32 "sonata").map (fun p => p.measures) =
      [2, 2, 2, 2, 3, 3, 3, 3, 2, 2, 2, 2] ∧
    ((plan_structure 32 "sonata").map (fun p => p.measures)).sum = 28 ∧ 28 ≤ 32 ∧
    (plan_structure 32 "sonata").map (fun p => p.parent_section) =
      ["exposition", "exposition", "exposition", "exposition",
       "development", "development", "development", "development",
       "recapitulation", "recapitulation", "recapitulation", "recapitulation"] := by
  refine ⟨?_, ?_, ?_, ?_, ?_, ?_⟩ <;> with_unfolding_all decide

/-- Counterexample for C8: `plan_structure` only fills the plan in its
`form == 'sonata'` branch, so the rondo and theme-variations forms return
an empty plan, not a non-empty section list. -/
theorem plan_structure_rondo_variations_empty :
    plan_structure 32 "rondo" = [] ∧ plan_structure 32 "theme_variations" = [] := by
  constructor <;> rfl

/-- C8 (amended): only the sonata template is expanded: `rondo` and
`theme_variations` yield empty plans for every total; an unknown form name
falls back to `sonata` and yields the non-empty 12-subsection sonata plan. -/
theorem plan_structure_unknown_form_sonata (total : Nat) (form : String)
    (h : form ∉ form_template_keys) :
    plan_structure total "rondo" = [] ∧
    plan_structure total "theme_variations" = [] ∧
    plan_structure total form = plan_structure total "sonata" ∧
    plan_structure total "sonata" ≠ [] := by
  refine ⟨rfl, rfl, ?_, ?_⟩
  · simp [plan_structure, h]
  · simp [plan_structure, sonata_sections, form_template_keys]

/-- Witness for C8 (amended) at total 7 and the unknown form `minuet`. -/
theorem plan_structure_unknown_form_sonata_witness :
    plan_structure 7 "rondo" = [] ∧
    plan_structure 7 "theme_variations" = [] ∧
    plan_structure 7 "minuet" = plan_structure 7 "sonata" ∧
    plan_structure 7 "sonata" ≠ [] :=
  plan_structure_unknown_form_sonata 7 "minuet" (by decide)

theorem melody_measure_dynamic (tbl : TransTable) (rtbl : RhythmTable) (mIdx sM : Nat)
    (primary : MotivicCell) (ch : String) (ctx : MusicalContext) (r : RState)
    (mea : MMeasure) (c2 : MusicalContext) (r2 : RState)
    (h : melody_measure tbl rtbl mIdx sM primary ch ctx r = some (mea, c2, r2))
    (h4 : mIdx % 4 = 0) : mea.dynamic.isSome := by
  simp only [melody_measure, draw] at h
  split at h
  · exact Option.noConfusion h
  · rw [if_pos h4] at h
    have h' := Option.some.inj h
    have hd := congrArg (fun x => x.1.dynamic) h'
    simp only at hd
    rw [← hd]
    rfl

theorem section_melody_length (tbl : TransTable) (rtbl : RhythmTable) (n : Nat) :
    ∀ (mIdx sM : Nat) (primary : MotivicCell) (ch : String) (ctx : MusicalContext)
      (r : RState) (out : List MMeasure × MusicalContext × RState),
    section_melody tbl rtbl n mIdx sM primary ch ctx r = some out → out.1.length = n := by
  induction n with
  | zero =>
    intro mIdx sM primary ch ctx r out h
    simp only [section_melody] at h
    obtain rfl := Option.some.inj h
    rfl
  | succ n ih =>
    intro mIdx sM primary ch ctx r out h
    simp only [section_melody] at h
    split at h
    · exact Option.noConfusion h
    · split at h
      · exact Option.noConfusion h
      · rename_i ms ctxF rF heq2
        obtain rfl := Option.some.inj h
        have hn : ms.length = n := ih _ _ _ _ _ _ _ heq2
        simp only [List.length_cons]
        omega

theorem section_melody_dynamic (tbl : TransTable) (rtbl : RhythmTable) (n : Nat) :
    ∀ (mIdx sM : Nat) (primary : MotivicCell) (ch : String) (ctx : MusicalContext)
      (r : RState) (out : List MMeasure × MusicalContext × RState) (j : Nat),
    section_melody tbl rtbl n mIdx sM primary ch ctx r = some out →
    j < n → (mIdx + j) % 4 = 0 →
    ∃ mea, out.1.get? j = some mea ∧ mea.dynamic.isSome := by
  induction n with
  | zero =>
    intro mIdx sM primary ch ctx r out j _ hj _
    omega
  | succ n ih =>
    intro mIdx sM primary ch ctx r out j h hj h4
    simp only [section_melody] at h
    split at h
    · exact Option.noConfusion h
    · rename_i mea ctx2 r2 heq1
      split at h
      · exact Option.noConfusion h
      · rename_i ms ctxF rF heq2
        obtain rfl := Option.some.inj h
        cases j with
        | zero =>
          refine ⟨mea, rfl, ?_⟩
          exact melody_measure_dynamic _ _ _ _ _ _ _ _ _ _ _ heq1 (by omega)
        | succ j =>
          have harg : mIdx + 1 + j = mIdx + (j + 1) := by omega
          exact ih _ _ _ _ _ _ _ j heq2 (by omega) (by rw [harg]; exact h4)

theorem section_accomp_length (n : Nat) :
    ∀ (mIdx sM : Nat) (ch : String) (harmony : List String) (ctx : MusicalContext)
      (r : RState), (section_accomp n mIdx sM ch harmony ctx r).1.length = n := by
  induction n with
  | zero => intro mIdx sM ch harmony ctx r; rfl
  | succ n ih =>
    intro mIdx sM ch harmony ctx r
    simp only [section_accomp, List.length_cons]
    rw [ih]

theorem generate_section_parts (plan : SectionPlan) (primary : MotivicCell) (sM : Nat)
    (ctx : MusicalContext) (r : RState) (out : SectionMusic × MusicalContext × RState)
    (h : generate_section plan primary sM ctx r = some out) :
    out.1.right.length = plan.measures ∧ out.1.left.length = plan.measures ∧
    (∀ m, m < plan.measures → m % 4 = 0 →
      ∃ mea, out.1.right.get? m = some mea ∧ mea.dynamic.isSome) := by
  simp only [generate_section] at h
  split at h
  · exact Option.noConfusion h
  · rename_i rightMs ctx2 r2 heq
    obtain rfl := Option.some.inj h
    refine ⟨?_, ?_, ?_⟩
    · exact section_melody_length _ _ _ _ _ _ _ _ _ _ heq
    · exact section_accomp_length _ _ _ _ _ _ _
    · intro m hm hm4
      exact section_melody_dynamic _ _ _ _ _ _ _ _ _ _ m heq hm (by omega)

theorem compose_sections_balanced (plans : List SectionPlan) (primary : MotivicCell) :
    ∀ (rh lh : List MMeasure) (ctx : MusicalContext) (r : RState) (cur : Nat)
      (out : List MMeasure × List MMeasure),
    rh.length = lh.length →
    compose_sections plans primary rh lh ctx r cur = some out →
    out.1.length = out.2.length := by
  induction plans with
  | nil =>
    intro rh lh ctx r cur out hlen h
    simp only [compose_sections] at h
    obtain rfl := Option.some.inj h
    exact hlen
  | cons plan rest ih =>
    intro rh lh ctx r cur out hlen h
    simp only [compose_sections] at h
    split at h
    · exact Option.noConfusion h
    · rename_i music ctx2 r2 heq
      obtain ⟨hr, hl, -⟩ := generate_section_parts plan primary cur _ r (music, ctx2, r2) heq
      have hr2 : music.right.length = plan.measures := hr
      have hl2 : music.left.length = plan.measures := hl
      apply ih _ _ _ _ _ _ _ h
      simp only [List.length_append]
      omega

theorem compose_parts (total : Nat) (r : RState) (sc : Score)
    (hsc : compose total "sonata" r = some sc) :
    sc.parts.length = 2 ∧ (sc.parts.getD 0 []).length = (sc.parts.getD 1 []).length := by
  simp only [compose] at hsc
  split at hsc
  · exact Option.noConfusion hsc
  · rename_i rh lh heq
    obtain rfl := Option.some.inj hsc
    refine ⟨rfl, ?_⟩
    simpa using compose_sections_balanced _ _ _ _ _ _ _ _ rfl heq

set_option maxRecDepth 100000 in
/-- Counterexample for C9: `compose(32, 'sonata')` does not always return a
score.  Under the all-sevens stream the first melody measure of the opening
energetic section takes the Markov path while the pitch history is still
empty, and the weight adjustment raises IndexError (the C2 failure), which
aborts the whole composition — modelled as `none`. -/
theorem compose_32_sonata_raises : compose 32 "sonata" sample_r7 = none := by
  with_unfolding_all rfl

/-- C9 (amended): whenever `compose(total, 'sonata')` returns a score — it
can instead raise, per the counterexample, when an early Markov-path
measure finds the pitch history empty — that score has exactly two parts
whose melody and accompaniment voices span the same total measure count;
every generated section gives the right-hand and left-hand voices the same
number of measures, and (in particular in energetic and intense sections) a
dynamic marking is inserted at the start of every 4th measure. -/
theorem compose_two_part_structure
    (total : Nat) (r : RState) (sc : Score) (hsc : compose total "sonata" r = some sc)
    (plan : SectionPlan) (primary : MotivicCell) (startM : Nat) (ctx : MusicalContext)
    (r2 : RState) (out : SectionMusic × MusicalContext × RState)
    (hout : generate_section plan primary startM ctx r2 = some out)
    (m : Nat) (hm : m < plan.measures) (h4 : m % 4 = 0)
    (hch : plan.character = "energetic" ∨ plan.character = "intense") :
    sc.parts.length = 2 ∧
    (sc.parts.getD 0 []).length = (sc.parts.getD 1 []).length ∧
    out.1.right.length = plan.measures ∧
    out.1.left.length = plan.measures ∧
    ∃ mea, out.1.right.get? m = some mea ∧ mea.dynamic.isSome := by
  obtain ⟨h1, h2⟩ := compose_parts total r sc hsc
  obtain ⟨h3, h5, h6⟩ := generate_section_parts plan primary startM ctx r2 out hout
  exact ⟨h1, h2, h3, h5, h6 m hm h4⟩

set_option maxRecDepth 100000 in
set_option maxHeartbeats 1000000 in
/-- Witness for C9 (amended): a completing `compose 32 "sonata"` run and the
two-measure energetic first-theme section of the 32-measure sonata plan,
both under the all-zeros stream. -/
theorem compose_two_part_structure_witness :
    sample_score.parts.length = 2 ∧
    (sample_score.parts.getD 0 []).length = (sample_score.parts.getD 1 []).length ∧
    sample_section.1.right.length = sample_plan.measures ∧
    sample_section.1.left.length = sample_plan.measures ∧
    ∃ mea, sample_section.1.right.get? 0 = some mea ∧ mea.dynamic.isSome :=
  compose_two_part_structure 32 sample_r0 sample_score (by with_unfolding_all rfl)
    sample_plan sample_motif 0 initial_context sample_r0 sample_section
    (by with_unfolding_all rfl) 0 (by decide) (by decide) (Or.inl rfl)

end BeethovenLab
